import Mathlib

/-!
Verification of the StudyBuddy knowledge-retrieval and spaced-repetition core.

The definitions below are shallow embeddings of the Python functions in
`backend/spaced_repetition.py`, `backend/chunk.py`, `backend/embeddings.py`
and `backend/llm_client.py`.  Python floats are modelled by exact arithmetic
(`ℚ` where the code stays in computable territory, `ℝ` where a square root
appears); Python `int` by `ℤ`/`ℕ`; `date` values by an integer day number;
fallible calls into the persistence layer by an explicit `Except` argument.
-/

/-! ### SM-2 scheduler (`backend/spaced_repetition.py`) -/

/-- Python's built-in `round`: round half to even (banker's rounding). -/
def pythonRound (q : ℚ) : ℤ :=
  let f := ⌊q⌋
  let r := q - f
  if r < 1/2 then f
  else if 1/2 < r then f + 1
  else if 2 ∣ f then f else f + 1

/-- Result of `sm2_update`: the tuple
`(easiness, interval, repetitions, due_date)` returned by the Python code. -/
structure SM2Result where
  easiness : ℚ
  interval : ℤ
  repetitions : ℕ
  dueDate : ℤ
  deriving Repr, DecidableEq

/-- `sm2_update(card, quality)` from `backend/spaced_repetition.py`.
`today` stands for `date.today()`, as a day number; the due date is returned
as a day number instead of an ISO string. -/
def sm2_update (easiness : ℚ) (repetitions : ℕ) (interval : ℤ)
    (quality : ℤ) (today : ℤ) : SM2Result :=
  let repetitions' : ℕ := if quality < 3 then 0 else repetitions + 1
  let interval' : ℤ :=
    if quality < 3 then 1
    else if repetitions = 0 then 1
    else if repetitions = 1 then 6
    else pythonRound ((interval : ℚ) * easiness)
  let easiness' := max (13/10)
    (easiness + (1/10 - ((5 - quality : ℤ) : ℚ) * (8/100 + ((5 - quality : ℤ) : ℚ) * (2/100))))
  { easiness := easiness'
    interval := interval'
    repetitions := repetitions'
    dueDate := today + interval' }

/-- `⌊q⌋ ≥ 1` forces every branch of `pythonRound` to return at least `1`. -/
theorem one_le_pythonRound {q : ℚ} (h : (13/10 : ℚ) ≤ q) : 1 ≤ pythonRound q := by
  have hf : (1 : ℤ) ≤ ⌊q⌋ := by
    rw [Int.le_floor]
    calc ((1 : ℤ) : ℚ) = 1 := by norm_num
    _ ≤ 13/10 := by norm_num
    _ ≤ q := h
  unfold pythonRound
  dsimp only
  split
  · exact hf
  · split
    · omega
    · split
      · exact hf
      · omega

/-- C1: the SM-2 review transition computes exactly the branches stated in
the spec: on `quality < 3` the repetitions reset to 0 and the interval to 1;
otherwise the interval becomes 1 (R = 0), 6 (R = 1) or `round(I·E)` and the
repetitions increment; in every branch the easiness becomes
`max(1.3, E + 0.1 − (5−q)(0.08 + (5−q)·0.02))`, and the due date is the
current date plus the new interval. -/
theorem sm2_update_follows_sm2 (E : ℚ) (R : ℕ) (I : ℤ) (q today : ℤ)
    (hq0 : 0 ≤ q) (hq5 : q ≤ 5) :
    (sm2_update E R I q today).easiness
        = max (13/10) (E + 1/10 - (5 - (q : ℚ)) * (8/100 + (5 - (q : ℚ)) * (2/100))) ∧
    (q < 3 → (sm2_update E R I q today).repetitions = 0
        ∧ (sm2_update E R I q today).interval = 1) ∧
    (3 ≤ q → (sm2_update E R I q today).repetitions = R + 1
        ∧ (sm2_update E R I q today).interval
            = (if R = 0 then 1 else if R = 1 then 6 else pythonRound ((I : ℚ) * E))) ∧
    (sm2_update E R I q today).dueDate = today + (sm2_update E R I q today).interval := by
  refine ⟨?_, ?_, ?_, ?_⟩
  · unfold sm2_update
    dsimp only
    push_cast
    ring_nf
  · intro hq
    unfold sm2_update
    dsimp only
    rw [if_pos hq, if_pos hq]
    exact ⟨rfl, rfl⟩
  · intro hq
    unfold sm2_update
    dsimp only
    rw [if_neg (by omega), if_neg (by omega)]
    exact ⟨rfl, rfl⟩
  · rfl

/-- Witness for `sm2_update_follows_sm2` at a fresh card reviewed with
quality 5. -/
theorem sm2_update_follows_sm2_witness :
    (sm2_update (5/2) 0 1 5 0).easiness
        = max (13/10) (5/2 + 1/10 - (5 - ((5 : ℤ) : ℚ)) * (8/100 + (5 - ((5 : ℤ) : ℚ)) * (2/100))) ∧
    ((5 : ℤ) < 3 → (sm2_update (5/2) 0 1 5 0).repetitions = 0
        ∧ (sm2_update (5/2) 0 1 5 0).interval = 1) ∧
    ((3 : ℤ) ≤ 5 → (sm2_update (5/2) 0 1 5 0).repetitions = 0 + 1
        ∧ (sm2_update (5/2) 0 1 5 0).interval
            = (if (0 : ℕ) = 0 then 1 else if (0 : ℕ) = 1 then 6
                else pythonRound ((1 : ℚ) * (5/2)))) ∧
    (sm2_update (5/2) 0 1 5 0).dueDate = 0 + (sm2_update (5/2) 0 1 5 0).interval :=
  sm2_update_follows_sm2 (5/2) 0 1 5 0 (by decide) (by decide)

/-- C6: the card invariants `E ≥ 1.3` and `I ≥ 1` are preserved by every
review transition, for every quality (in particular for quality 0). -/
theorem sm2_update_invariant (E : ℚ) (R : ℕ) (I : ℤ) (q today : ℤ)
    (hE : (13/10 : ℚ) ≤ E) (hI : 1 ≤ I) :
    (13/10 : ℚ) ≤ (sm2_update E R I q today).easiness
      ∧ 1 ≤ (sm2_update E R I q today).interval := by
  constructor
  · unfold sm2_update
    exact le_max_left _ _
  · unfold sm2_update
    dsimp only
    split
    · omega
    · split
      · omega
      · split
        · omega
        · apply one_le_pythonRound
          have hE0 : (0 : ℚ) ≤ E := le_trans (by norm_num) hE
          have hI1 : (1 : ℚ) ≤ (I : ℚ) := by exact_mod_cast hI
          calc (13/10 : ℚ) ≤ E := hE
          _ ≤ (I : ℚ) * E := le_mul_of_one_le_left hE0 hI1

/-- Witness for `sm2_update_invariant`: a card with `E = 2.5`, `R = 3`,
`I = 4` reviewed with quality 0 keeps both invariants. -/
theorem sm2_update_invariant_witness :
    (13/10 : ℚ) ≤ (sm2_update (5/2) 3 4 0 0).easiness
      ∧ 1 ≤ (sm2_update (5/2) 3 4 0 0).interval :=
  sm2_update_invariant (5/2) 3 4 0 0 (by norm_num) (by norm_num)

/-! ### Chunker (`backend/chunk.py`) -/

/-- One element of the list returned by `chunk_text`: the dict
`{id, text, start, end}`. -/
structure PyChunk where
  id : ℕ
  text : List Char
  start : ℕ
  stop : ℕ
  deriving Repr, DecidableEq

/-- The `while start < len(text)` loop of `chunk_text`, instrumented with
fuel: `none` means the loop did not terminate within `fuel` iterations.
`text[start:end]` is `(text.drop start).take chunkSize`, and
`chunk_text_content.strip()` is truthy exactly when the slice contains a
non-whitespace character. -/
def chunkLoop (fuel : ℕ) (text : List Char) (chunkSize overlap : ℕ)
    (start chunkId : ℕ) (chunks : List PyChunk) : Option (List PyChunk) :=
  match fuel with
  | 0 => none
  | fuel + 1 =>
    if start < text.length then
      let piece := (text.drop start).take chunkSize
      if piece.any (fun c => ¬ c.isWhitespace) then
        chunkLoop fuel text chunkSize overlap (start + (chunkSize - overlap)) (chunkId + 1)
          (chunks ++ [⟨chunkId, piece, start, start + chunkSize⟩])
      else
        chunkLoop fuel text chunkSize overlap (start + (chunkSize - overlap)) chunkId chunks
    else
      some chunks

/-- `chunk_text(text, chunk_size, overlap)` from `backend/chunk.py`, with
fuel for the scan loop.  The function performs no validation of
`chunk_size`/`overlap`; when `overlap ≥ chunk_size` the cursor advance
`chunk_size - overlap` is not positive and the loop never terminates
(`none` for every fuel). -/
def chunk_text (fuel : ℕ) (text : List Char) (chunkSize overlap : ℕ) :
    Option (List PyChunk) :=
  if text = [] then some [] else chunkLoop fuel text chunkSize overlap 0 0 []

/-- With a zero step the loop guard `start < len(text)` stays true forever. -/
theorem chunkLoop_zero_step_none (text : List Char) (chunkSize : ℕ) :
    ∀ fuel start chunkId chunks, chunkSize ≥ 1 → start < text.length →
      chunkLoop fuel text chunkSize chunkSize start chunkId chunks = none := by
  intro fuel
  induction fuel with
  | zero => intro start chunkId chunks _ _; rfl
  | succ fuel ih =>
    intro start chunkId chunks hcs hlt
    unfold chunkLoop
    have hstep : chunkSize - chunkSize = 0 := Nat.sub_self chunkSize
    rw [if_pos hlt, hstep, Nat.add_zero]
    dsimp only
    split
    · exact ih start (chunkId + 1) _ hcs hlt
    · exact ih start chunkId chunks hcs hlt

/-- C2 (divergence witness): `chunk_text` does not reject
`overlap ≥ chunk_size` — on the concrete input `text = "ab"`,
`chunk_size = 1`, `overlap = 1` the scan never terminates, for every
amount of fuel, instead of returning a configuration error. -/
theorem chunk_text_diverges_when_overlap_eq_chunk_size :
    ∀ fuel, chunk_text fuel ['a', 'b'] 1 1 = none := by
  intro fuel
  unfold chunk_text
  rw [if_neg (by decide)]
  exact chunkLoop_zero_step_none ['a', 'b'] 1 fuel 0 0 [] (by decide) (by decide)

/-! ### Keyword fallback (`backend/embeddings.py`, `keyword_fallback_search`) -/

/-- Python `str.split()` with no separator: split on runs of whitespace,
discarding empty pieces.  `cur` is the (reversed) word being accumulated. -/
def pySplitAux : List Char → List Char → List (List Char)
  | [], cur => if cur = [] then [] else [cur.reverse]
  | c :: rest, cur =>
    if c.isWhitespace then
      if cur = [] then pySplitAux rest [] else cur.reverse :: pySplitAux rest []
    else
      pySplitAux rest (c :: cur)

/-- `text.lower().split()`: the case-insensitive whitespace tokens of a
string. -/
def pyLowerSplit (s : String) : List (List Char) :=
  pySplitAux (s.data.map Char.toLower) []

/-- `needle` occurs at the head of `hay`. -/
def charsStartWith : List Char → List Char → Bool
  | [], _ => true
  | _ :: _, [] => false
  | a :: as, b :: bs => a = b && charsStartWith as bs

/-- Python's substring test `needle in hay` on strings. -/
def containsSub (needle : List Char) : List Char → Bool
  | [] => charsStartWith needle []
  | c :: rest => charsStartWith needle (c :: rest) || containsSub needle rest

/-- The per-chunk score computed by `keyword_fallback_search`:
`query_words = set(query.lower().split())`,
`matches = sum(1 for word in query_words if word in text.lower())`,
`score = matches / len(query_words) if query_words else 0`.
Note the test `word in text_lower` is a *substring* test on the chunk text,
not membership among the chunk's whitespace tokens. -/
def substrScore (query text : String) : ℚ :=
  let queryWords := (pyLowerSplit query).dedup
  if queryWords = [] then 0
  else
    ((queryWords.filter
        (fun w => containsSub w (text.data.map Char.toLower))).length : ℚ)
      / (queryWords.length : ℚ)

/-- The score as claim C5 states it: `|{query terms} ∩ {chunk terms}| /
|{query terms}|` under case-insensitive whitespace tokenization of both the
query and the chunk text. -/
def claimTokenScore (query text : String) : ℚ :=
  let queryWords := (pyLowerSplit query).dedup
  let chunkWords := (pyLowerSplit text).dedup
  ((queryWords.filter (fun w => w ∈ chunkWords)).length : ℚ)
    / (queryWords.length : ℚ)

/-- A stored document together with the text of its chunks, as returned by
`db_client.get_user_resources`/`get_all_resources` plus
`db_client.get_resource_chunks`. -/
structure Resource where
  resourceId : String
  chunks : List String
  deriving Repr, DecidableEq

/-- The candidate list accumulated by the two nested loops of
`keyword_fallback_search`: every chunk of every resource in scope whose
score is positive, as `(text, score, resource_id)`, in scan order. -/
def fallback_candidates (resources : List Resource) (query : String) :
    List (String × ℚ × String) :=
  resources.flatMap (fun r =>
    r.chunks.filterMap (fun text =>
      if 0 < substrScore query text then
        some (text, substrScore query text, r.resourceId)
      else
        none))

/-- `results.sort(key=lambda x: x[1], reverse=True)`: sort descending by
score; Python's sort is stable.  Relation on the ℚ-scored triples. -/
def scoreDescQ (a b : String × ℚ × String) : Prop := b.2.1 ≤ a.2.1

instance : DecidableRel scoreDescQ := fun a b =>
  inferInstanceAs (Decidable (b.2.1 ≤ a.2.1))

instance : IsTotal (String × ℚ × String) scoreDescQ :=
  ⟨fun a b => le_total b.2.1 a.2.1⟩

instance : IsTrans (String × ℚ × String) scoreDescQ :=
  ⟨fun _ _ _ h1 h2 => le_trans h2 h1⟩

/-- `keyword_fallback_search(query, username, k)` from
`backend/embeddings.py`, with the resources in scope passed explicitly
(the code picks them with `get_user_resources`/`get_all_resources`). -/
def keyword_fallback_search (resources : List Resource) (query : String)
    (k : ℕ) : List (String × ℚ × String) :=
  (List.insertionSort scoreDescQ (fallback_candidates resources query)).take k

/-- The code's substring score on the demo pair. -/
theorem substrScore_cat_concatenate : substrScore "cat" "concatenate" = 1 := by
  have hq : (pyLowerSplit "cat").dedup = [['c', 'a', 't']] := by decide
  have hfs : List.filter
      (fun w => containsSub w ("concatenate".data.map Char.toLower))
      [['c', 'a', 't']] = [['c', 'a', 't']] := by decide
  unfold substrScore
  rw [hq]
  rw [if_neg (by decide)]
  rw [hfs]
  norm_num

/-- The claim's token-intersection score on the demo pair. -/
theorem claimTokenScore_cat_concatenate : claimTokenScore "cat" "concatenate" = 0 := by
  have hq : (pyLowerSplit "cat").dedup = [['c', 'a', 't']] := by decide
  have hcw : (pyLowerSplit "concatenate").dedup
      = [['c', 'o', 'n', 'c', 'a', 't', 'e', 'n', 'a', 't', 'e']] := by decide
  have hfc : List.filter
      (fun w => w ∈ [['c', 'o', 'n', 'c', 'a', 't', 'e', 'n', 'a', 't', 'e']])
      [['c', 'a', 't']] = [] := by decide
  unfold claimTokenScore
  rw [hq, hcw]
  dsimp only
  rw [hfc]
  norm_num

/-- A one-resource, one-chunk store used for concrete counterexamples. -/
def demoResources : List Resource := [⟨"r1", ["concatenate"]⟩]

/-- The fallback candidate list on the demo store. -/
theorem fallback_candidates_demo :
    fallback_candidates demoResources "cat" = [("concatenate", 1, "r1")] := by
  have hpos : (0 : ℚ) < substrScore "cat" "concatenate" := by
    rw [substrScore_cat_concatenate]; norm_num
  unfold fallback_candidates demoResources
  rw [List.flatMap_cons, List.flatMap_nil]
  dsimp only
  rw [List.filterMap_cons, if_pos hpos, substrScore_cat_concatenate, List.filterMap_nil]
  rfl

/-- The keyword fallback output on the demo store. -/
theorem keyword_fallback_search_demo :
    keyword_fallback_search demoResources "cat" 5 = [("concatenate", 1, "r1")] := by
  unfold keyword_fallback_search
  rw [fallback_candidates_demo]
  rfl

/-- C5 counterexample: for the query `"cat"` and the single chunk
`"concatenate"`, the claimed token-intersection score is `0` (so the chunk
should be excluded), but the code's substring-based score is `1` and the
chunk is returned. -/
theorem keyword_score_counterexample :
    claimTokenScore "cat" "concatenate" = 0 ∧
    substrScore "cat" "concatenate" = 1 ∧
    keyword_fallback_search demoResources "cat" 5
      = [("concatenate", 1, "r1")] :=
  ⟨claimTokenScore_cat_concatenate, substrScore_cat_concatenate,
    keyword_fallback_search_demo⟩

/-- C5 (amended): a chunk appears among the fallback candidates exactly
when its score — the number of **distinct** query terms occurring as
*substrings* of the lowercased chunk text, divided by the number of
distinct query terms — is positive; zero-score chunks are excluded. -/
theorem fallback_candidates_mem_iff (resources : List Resource)
    (query : String) (t : String) (s : ℚ) (rid : String) :
    (t, s, rid) ∈ fallback_candidates resources query ↔
      ∃ r ∈ resources, rid = r.resourceId ∧ t ∈ r.chunks
        ∧ s = substrScore query t ∧ 0 < s := by
  unfold fallback_candidates
  rw [List.mem_flatMap]
  constructor
  · rintro ⟨r, hr, hmem⟩
    rw [List.mem_filterMap] at hmem
    obtain ⟨text, htext, hf⟩ := hmem
    by_cases h : 0 < substrScore query text
    · rw [if_pos h, Option.some.injEq] at hf
      obtain ⟨rfl, rfl, rfl⟩ := hf
      exact ⟨r, hr, rfl, htext, rfl, h⟩
    · rw [if_neg h] at hf
      exact absurd hf (Option.noConfusion)
  · rintro ⟨r, hr, rfl, htext, rfl, hpos⟩
    refine ⟨r, hr, ?_⟩
    rw [List.mem_filterMap]
    exact ⟨t, htext, by rw [if_pos hpos]⟩

/-! ### Cosine similarity and vector retrieval (`backend/embeddings.py`) -/

/-- `np.dot(v1, v2)`. -/
def dotProduct (v1 v2 : List ℝ) : ℝ := (List.zipWith (· * ·) v1 v2).sum

/-- Sum of squares of the components; `np.linalg.norm v` is
`Real.sqrt (sumSq v)`. -/
def sumSq (v : List ℝ) : ℝ := (v.map (fun x => x * x)).sum

theorem sumSq_nonneg (v : List ℝ) : 0 ≤ sumSq v := by
  apply List.sum_nonneg
  intro x hx
  obtain ⟨y, _, rfl⟩ := List.mem_map.mp hx
  exact mul_self_nonneg y

/-- `cosine_similarity(vec1, vec2)` from `backend/embeddings.py`:
`dot / (‖v1‖·‖v2‖)`, guarded by `if norm1 == 0 or norm2 == 0: return 0.0`. -/
noncomputable def cosine_similarity (v1 v2 : List ℝ) : ℝ :=
  let norm1 := Real.sqrt (sumSq v1)
  let norm2 := Real.sqrt (sumSq v2)
  if norm1 = 0 ∨ norm2 = 0 then 0
  else dotProduct v1 v2 / (norm1 * norm2)

/-- C9: `cosine_similarity` is total — whenever either vector has zero
norm the result is exactly `0.0`, and otherwise the division it performs
has a provably nonzero denominator (so no division by zero and no NaN can
arise). -/
theorem cosine_similarity_total (v1 v2 : List ℝ) :
    ((sumSq v1 = 0 ∨ sumSq v2 = 0) → cosine_similarity v1 v2 = 0) ∧
    (sumSq v1 ≠ 0 → sumSq v2 ≠ 0 →
      Real.sqrt (sumSq v1) * Real.sqrt (sumSq v2) ≠ 0 ∧
      cosine_similarity v1 v2
        = dotProduct v1 v2 / (Real.sqrt (sumSq v1) * Real.sqrt (sumSq v2))) := by
  constructor
  · intro h
    unfold cosine_similarity
    dsimp only
    rw [if_pos ?_]
    rcases h with h | h
    · exact Or.inl (by rw [h, Real.sqrt_zero])
    · exact Or.inr (by rw [h, Real.sqrt_zero])
  · intro h1 h2
    have hpos1 : 0 < sumSq v1 := lt_of_le_of_ne (sumSq_nonneg v1) (Ne.symm h1)
    have hpos2 : 0 < sumSq v2 := lt_of_le_of_ne (sumSq_nonneg v2) (Ne.symm h2)
    have hs1 : Real.sqrt (sumSq v1) ≠ 0 := by
      rw [Real.sqrt_ne_zero']
      exact hpos1
    have hs2 : Real.sqrt (sumSq v2) ≠ 0 := by
      rw [Real.sqrt_ne_zero']
      exact hpos2
    refine ⟨mul_ne_zero hs1 hs2, ?_⟩
    unfold cosine_similarity
    dsimp only
    rw [if_neg (by push_neg; exact ⟨hs1, hs2⟩)]

/-- Witness for `cosine_similarity_total`: a zero vector gives exactly 0,
and for unit vectors the division form with a nonzero denominator holds. -/
theorem cosine_similarity_total_witness :
    cosine_similarity [(0 : ℝ)] [1] = 0 ∧
    cosine_similarity [(1 : ℝ)] [1]
      = dotProduct [(1 : ℝ)] [1]
          / (Real.sqrt (sumSq [(1 : ℝ)]) * Real.sqrt (sumSq [(1 : ℝ)])) :=
  ⟨(cosine_similarity_total [(0 : ℝ)] [1]).1 (Or.inl (by norm_num [sumSq])),
    ((cosine_similarity_total [(1 : ℝ)] [1]).2 (by norm_num [sumSq])
      (by norm_num [sumSq])).2⟩

/-- One element of the list returned by `db_client.get_all_embeddings`:
`(key, vector, metadata)`, with the metadata reduced to the chunk text it
carries (`metadata.get("text", metadata.get("preview", ""))`). -/
structure EmbEntry where
  key : String
  vector : List ℝ
  text : String

/-- `parts = key.split(":"); resource_id = parts[0] if parts else "unknown"`. -/
def resourceOf (key : String) : String := (key.splitOn ":").headD "unknown"

/-- The per-entry scoring loop of `retrieve_top_k`: for every scanned
entry, `(text, cosine_similarity(query_embedding, vector), resource_id)`
in scan order. -/
noncomputable def scan_results (queryEmbedding : List ℝ)
    (entries : List EmbEntry) : List (String × ℝ × String) :=
  entries.map (fun e =>
    (e.text, cosine_similarity queryEmbedding e.vector, resourceOf e.key))

/-- `results.sort(key=lambda x: x[1], reverse=True)` on the ℝ-scored
triples: descending by score, stable. -/
def scoreDescR (a b : String × ℝ × String) : Prop := b.2.1 ≤ a.2.1

noncomputable instance : DecidableRel scoreDescR := fun a b =>
  Real.decidableLE b.2.1 a.2.1

instance : IsTotal (String × ℝ × String) scoreDescR :=
  ⟨fun a b => le_total b.2.1 a.2.1⟩

instance : IsTrans (String × ℝ × String) scoreDescR :=
  ⟨fun _ _ _ h1 h2 => le_trans h2 h1⟩

/-- `retrieve_top_k(query, username, k)` from `backend/embeddings.py`.
The embedding/scan pipeline (`get_embedding` plus
`db_client.get_all_embeddings`) is passed as an `Except`: `error` models
the `try` block raising (the `except` branch calls
`keyword_fallback_search`), `ok` carries the query embedding and the
scanned entries.  The fallback's ℚ scores are injected into ℝ at the
boundary so both paths share a result type. -/
noncomputable def retrieve_top_k
    (pipeline : Except String (List ℝ × List EmbEntry))
    (resources : List Resource) (query : String) (k : ℕ) :
    List (String × ℝ × String) :=
  match pipeline with
  | .error _ =>
    (keyword_fallback_search resources query k).map
      (fun r => (r.1, ((r.2.1 : ℚ) : ℝ), r.2.2))
  | .ok (queryEmbedding, embeddingsData) =>
    if embeddingsData.isEmpty then []
    else
      (List.insertionSort scoreDescR
        (scan_results queryEmbedding embeddingsData)).take k

/-- Stability of the descending sort: for every score value, the entries
carrying that score appear in the sorted list exactly in their original
scan order. -/
theorem insertionSort_filter_score (l : List (String × ℝ × String)) (s : ℝ) :
    (List.insertionSort scoreDescR l).filter (fun x => x.2.1 = s)
      = l.filter (fun x => x.2.1 = s) := by
  have hmem : ∀ x ∈ l.filter (fun x => decide (x.2.1 = s)), x.2.1 = s := by
    intro x hx
    exact of_decide_eq_true (List.mem_filter.mp hx).2
  have hpw : (l.filter (fun x => decide (x.2.1 = s))).Pairwise scoreDescR := by
    apply List.pairwise_of_forall_mem_list
    intro a ha b hb
    unfold scoreDescR
    rw [hmem a ha, hmem b hb]
  have hsub : List.Sublist (l.filter (fun x => decide (x.2.1 = s)))
      (List.insertionSort scoreDescR l) :=
    List.sublist_insertionSort hpw (List.filter_sublist l)
  have h2 : List.Sublist (l.filter (fun x => decide (x.2.1 = s)))
      ((List.insertionSort scoreDescR l).filter (fun x => decide (x.2.1 = s))) := by
    have h3 := hsub.filter (fun x => decide (x.2.1 = s))
    rwa [List.filter_filter, (by
      funext a
      rw [Bool.and_self] : (fun a : String × ℝ × String =>
        decide (a.2.1 = s) && decide (a.2.1 = s)) = fun a => decide (a.2.1 = s))] at h3
  have hperm : List.Perm
      ((List.insertionSort scoreDescR l).filter (fun x => decide (x.2.1 = s)))
      (l.filter (fun x => decide (x.2.1 = s))) :=
    (List.perm_insertionSort scoreDescR l).filter _
  exact (List.Sublist.eq_of_length h2 hperm.length_eq.symm).symm

/-- C4: when the scan succeeds, `retrieve_top_k` returns at most `k`
results, sorted by non-increasing similarity score, and entries with equal
scores keep their original scan order (stable tie-break). -/
theorem retrieve_top_k_ranking (qv : List ℝ) (entries : List EmbEntry)
    (resources : List Resource) (query : String) (k : ℕ) (s : ℝ) :
    (retrieve_top_k (.ok (qv, entries)) resources query k).length ≤ k ∧
    List.Sorted scoreDescR (retrieve_top_k (.ok (qv, entries)) resources query k) ∧
    (List.insertionSort scoreDescR (scan_results qv entries)).filter
        (fun x => x.2.1 = s)
      = (scan_results qv entries).filter (fun x => x.2.1 = s) := by
  have hred : retrieve_top_k (.ok (qv, entries)) resources query k
      = if entries.isEmpty then []
        else (List.insertionSort scoreDescR (scan_results qv entries)).take k := rfl
  refine ⟨?_, ?_, insertionSort_filter_score _ s⟩
  · rw [hred]
    by_cases h : entries.isEmpty
    · rw [if_pos h]
      exact Nat.zero_le k
    · rw [if_neg h]
      exact List.length_take_le _ _
  · rw [hred]
    by_cases h : entries.isEmpty
    · rw [if_pos h]
      exact List.sorted_nil
    · rw [if_neg h]
      exact List.Pairwise.sublist (List.take_sublist _ _)
        (List.sorted_insertionSort scoreDescR _)

/-- C3 (amended): the keyword fallback runs exactly when the
embedding/scan pipeline raises; a successful scan that returns no stored
vectors makes `retrieve_top_k` return the empty list directly, without
running the keyword path. -/
theorem retrieve_top_k_fallback_only_on_error (e : String) (qv : List ℝ)
    (resources : List Resource) (query : String) (k : ℕ) :
    retrieve_top_k (.ok (qv, [])) resources query k = [] ∧
    retrieve_top_k (.error e) resources query k
      = (keyword_fallback_search resources query k).map
          (fun r => (r.1, ((r.2.1 : ℚ) : ℝ), r.2.2)) :=
  ⟨rfl, rfl⟩

/-- C3 counterexample: on a store whose vector scan is empty but whose
documents match the query, `retrieve_top_k` returns `[]`, which differs
from what the keyword fallback path (taken only on a raised pipeline)
produces — so the empty scan does **not** trigger the fallback. -/
theorem retrieve_top_k_empty_scan_counterexample :
    retrieve_top_k (Except.ok ([], [])) demoResources "cat" 5 = [] ∧
    retrieve_top_k (Except.error "boom") demoResources "cat" 5
      = [("concatenate", ((1 : ℚ) : ℝ), "r1")] ∧
    retrieve_top_k (Except.ok ([], [])) demoResources "cat" 5
      ≠ retrieve_top_k (Except.error "boom") demoResources "cat" 5 := by
  have h1 : retrieve_top_k (Except.ok ([], [])) demoResources "cat" 5 = [] := rfl
  have h2 : retrieve_top_k (Except.error "boom") demoResources "cat" 5
      = [("concatenate", ((1 : ℚ) : ℝ), "r1")] := by
    have hb : retrieve_top_k (Except.error "boom") demoResources "cat" 5
        = (keyword_fallback_search demoResources "cat" 5).map
            (fun r => (r.1, ((r.2.1 : ℚ) : ℝ), r.2.2)) := rfl
    rw [hb, keyword_fallback_search_demo]
    rfl
  refine ⟨h1, h2, ?_⟩
  rw [h1, h2]
  intro h
  exact List.noConfusion h

/-! ### Deterministic mock embedding (`backend/llm_client.py`) -/

/-- The raw 1536-component vector built by `_mock_embedding` before
normalization: component `i` is `h(text, i) / 2^64 * 2 - 1`, where
`h text i` abstracts `int.from_bytes(sha256(text + str(i))[:8], 'big')`. -/
noncomputable def mock_embedding_raw (h : String → ℕ → ℕ) (text : String) :
    List ℝ :=
  (List.range 1536).map (fun i => ((h text i : ℝ) / 2 ^ 64) * 2 - 1)

/-- `_mock_embedding(text)` from `backend/llm_client.py`: the raw hashed
vector, divided by its magnitude when `magnitude > 0`. -/
noncomputable def mock_embedding (h : String → ℕ → ℕ) (text : String) :
    List ℝ :=
  let vector := mock_embedding_raw h text
  let magnitude := Real.sqrt (sumSq vector)
  if 0 < magnitude then vector.map (fun v => v / magnitude) else vector

theorem sumSq_map_div (l : List ℝ) (c : ℝ) :
    sumSq (l.map (fun x => x / c)) = sumSq l / (c * c) := by
  induction l with
  | nil => simp [sumSq]
  | cons x l ih =>
    unfold sumSq at ih ⊢
    rw [List.map_cons, List.map_cons, List.sum_cons, List.map_cons,
      List.sum_cons, ih, div_mul_div_comm, add_div]

/-- C7: the fallback mock embedding is deterministic (a pure function of
the text), has exactly 1536 components, and — whenever the raw hashed
vector is nonzero, which the code's `magnitude > 0` guard tests — has
squared L2 norm exactly 1. -/
theorem mock_embedding_spec (h : String → ℕ → ℕ) (t₁ t₂ : String)
    (hdet : t₁ = t₂) (hnz : sumSq (mock_embedding_raw h t₁) ≠ 0) :
    mock_embedding h t₁ = mock_embedding h t₂ ∧
    (mock_embedding h t₁).length = 1536 ∧
    sumSq (mock_embedding h t₁) = 1 := by
  subst hdet
  have hpos : 0 < sumSq (mock_embedding_raw h t₁) :=
    lt_of_le_of_ne (sumSq_nonneg _) (Ne.symm hnz)
  have hm : 0 < Real.sqrt (sumSq (mock_embedding_raw h t₁)) :=
    Real.sqrt_pos.mpr hpos
  refine ⟨rfl, ?_, ?_⟩
  · unfold mock_embedding
    dsimp only
    rw [if_pos hm, List.length_map]
    unfold mock_embedding_raw
    rw [List.length_map, List.length_range]
  · unfold mock_embedding
    dsimp only
    rw [if_pos hm, sumSq_map_div, Real.mul_self_sqrt (le_of_lt hpos),
      div_self hnz]

/-- A degenerate hash used to instantiate the abstract hash function in
witnesses: every digest is 0, so every raw component is `-1`. -/
def hashZero : String → ℕ → ℕ := fun _ _ => 0

theorem sumSq_mock_embedding_raw_hashZero (t : String) :
    sumSq (mock_embedding_raw hashZero t) = 1536 := by
  have hlen : (mock_embedding_raw hashZero t).length = 1536 := by
    unfold mock_embedding_raw
    rw [List.length_map, List.length_range]
  have hrep : mock_embedding_raw hashZero t = List.replicate 1536 (-1) := by
    rw [← hlen]
    apply List.eq_replicate_of_mem
    intro b hb
    unfold mock_embedding_raw at hb
    obtain ⟨i, _, rfl⟩ := List.mem_map.mp hb
    norm_num [hashZero]
  rw [hrep]
  unfold sumSq
  rw [List.map_replicate, List.sum_replicate]
  norm_num

/-- Witness for `mock_embedding_spec` with the all-zero hash. -/
theorem mock_embedding_spec_witness :
    mock_embedding hashZero "studybuddy" = mock_embedding hashZero "studybuddy" ∧
    (mock_embedding hashZero "studybuddy").length = 1536 ∧
    sumSq (mock_embedding hashZero "studybuddy") = 1 :=
  mock_embedding_spec hashZero "studybuddy" "studybuddy" rfl
    (by rw [sumSq_mock_embedding_raw_hashZero]; norm_num)

/-! ### Card review and due cards (`backend/spaced_repetition.py`) -/

/-- A row of the `sr_cards` table, as read by `db_client.get_sr_card`. -/
structure StoredCard where
  cardId : String
  username : String
  easiness : ℚ
  repetitions : ℕ
  interval : ℤ
  dueDate : ℤ
  deriving Repr, DecidableEq

/-- The value returned by `review_card`: either `{"error": msg}` or the
success dict `{card_id, next_review, interval_days, quality}`. -/
inductive ReviewOutcome where
  | error (msg : String)
  | reviewed (cardId : String) (nextReview : ℤ) (intervalDays : ℤ) (quality : ℤ)
  deriving Repr, DecidableEq

/-- `db_client.update_sr_card`: overwrite the SM-2 fields of the card with
the given id. -/
def update_sr_card (db : List StoredCard) (cardId : String)
    (res : SM2Result) : List StoredCard :=
  db.map (fun c =>
    if c.cardId = cardId then
      { c with easiness := res.easiness, repetitions := res.repetitions,
               interval := res.interval, dueDate := res.dueDate }
    else c)

/-- `review_card(username, card_id, quality)` from
`backend/spaced_repetition.py`, with the card store passed and returned
explicitly.  `db.find?` models `db_client.get_sr_card` (`None` when the id
is unknown). -/
def review_card (username cardId : String) (quality today : ℤ)
    (db : List StoredCard) : ReviewOutcome × List StoredCard :=
  match db.find? (fun c => c.cardId = cardId) with
  | none => (.error "Card not found", db)
  | some card =>
    if card.username ≠ username then
      (.error "Unauthorized", db)
    else
      let res := sm2_update card.easiness card.repetitions card.interval
        quality today
      (.reviewed cardId res.dueDate res.interval quality,
        update_sr_card db cardId res)

/-- C8: an unknown card id yields the explicit result
`{"error": "Card not found"}` and a card owned by another user yields
`{"error": "Unauthorized"}`; in both cases the card store is returned
unchanged (no easiness/interval/repetitions/due-date update happens). -/
theorem review_card_error_paths (username cardId : String)
    (quality today : ℤ) (db : List StoredCard) :
    (db.find? (fun c => c.cardId = cardId) = none →
      review_card username cardId quality today db
        = (.error "Card not found", db)) ∧
    (∀ card, db.find? (fun c => c.cardId = cardId) = some card →
      card.username ≠ username →
      review_card username cardId quality today db
        = (.error "Unauthorized", db)) := by
  constructor
  · intro h
    unfold review_card
    rw [h]
  · intro card h hne
    unfold review_card
    rw [h]
    dsimp only
    rw [if_pos hne]

/-- A one-card store owned by `"alice"`, for the C8 witness. -/
def demoDb : List StoredCard := [⟨"c1", "alice", 5/2, 0, 1, 0⟩]

/-- Witness for `review_card_error_paths`: an unknown id and a foreign
owner both produce the explicit error and leave the store unchanged. -/
theorem review_card_error_paths_witness :
    review_card "bob" "missing" 5 0 demoDb = (.error "Card not found", demoDb) ∧
    review_card "bob" "c1" 5 0 demoDb = (.error "Unauthorized", demoDb) :=
  ⟨(review_card_error_paths "bob" "missing" 5 0 demoDb).1 rfl,
    (review_card_error_paths "bob" "c1" 5 0 demoDb).2
      ⟨"c1", "alice", 5/2, 0, 1, 0⟩ rfl (by decide)⟩

/-- `get_due_cards(username)` from `backend/spaced_repetition.py`: the
whole body is a `try`/`except` around `db_client.get_due_cards`; any
raised error is swallowed and the empty list returned.  The store call is
passed as an `Except`. -/
def get_due_cards (fetch : Except String (List StoredCard)) :
    List StoredCard :=
  match fetch with
  | .error _ => []
  | .ok cards => cards

/-- C10: whenever the backing store raises, `get_due_cards` returns `[]`,
which is exactly what it returns when the store succeeds with no cards
due — the two situations are indistinguishable at this interface. -/
theorem get_due_cards_error_empty (e : String) :
    get_due_cards (.error e) = [] ∧
    get_due_cards (.error e) = get_due_cards (.ok []) ∧
    (∀ cards, get_due_cards (.ok cards) = cards) :=
  ⟨rfl, rfl, fun _ => rfl⟩
